import Mathlib

/-!
Verification of the hybrid retrieval pipeline of the ai-legal-assistant
backend: text chunking (utils/text_chunker.py), cosine similarity and pool
search (services/vector_store.py), hybrid merging and ranking
(services/hybrid_search_service.py), context assembly and generation
fallback (services/rag_service.py), and embedding input handling
(services/embedding_service.py).  Python strings are modelled as `List Char`
or `String`, Python floats as exact rationals (`ℚ`) or reals (`ℝ`) where
square roots occur, and fallible calls as `Except`.
-/

set_option maxRecDepth 8000

open scoped List

namespace Py

/-- Python whitespace characters (as matched by `str.split`, `str.strip`, `\s`). -/
def isPySpace (c : Char) : Bool :=
  c = ' ' || c = '\t' || c = '\n' || c = '\r' || c = '\x0b' || c = '\x0c'

/-- Auxiliary splitter realising `str.split()` (split on whitespace runs,
dropping empty pieces); `acc` holds the characters of the current word in
reverse. -/
def wordsAux : List Char → List Char → List (List Char)
  | [], acc => if acc = [] then [] else [acc.reverse]
  | c :: cs, acc =>
    if isPySpace c then
      if acc = [] then wordsAux cs [] else acc.reverse :: wordsAux cs []
    else
      wordsAux cs (c :: acc)

/-- Python `str.split()` on a character list. -/
def pyWords (l : List Char) : List (List Char) := wordsAux l []

/-- Python `str.strip()`: drop leading and trailing whitespace. -/
def pyStrip (l : List Char) : List Char :=
  ((l.dropWhile isPySpace).reverse.dropWhile isPySpace).reverse

/-- Join word lists with single spaces (Python `" ".join`). -/
def joinWords : List (List Char) → List Char
  | [] => []
  | [w] => w
  | w :: x :: ws => w ++ ' ' :: joinWords (x :: ws)

end Py

namespace TextChunker

/-- Token model standing in for the external `cl100k_base` tokenizer of
`tiktoken` (an external library, not part of this repository): a token is a
whitespace-delimited word, an equivalent token-estimation function in the
sense of the specification. -/
def encode (l : List Char) : List (List Char) := Py.pyWords l

/-- Decoding for the word-level token model (`encoding.decode`). -/
def decode (ts : List (List Char)) : List Char := Py.joinWords ts

/-- Number of tokens of a text (`len(self.encoding.encode(s))`). -/
def tokenCount (l : List Char) : Nat := (encode l).length

/-- Python slice `l[-n:]` on a token list (for `n = 0` Python yields the whole
list). -/
def sliceLast (n : Nat) (l : List (List Char)) : List (List Char) :=
  if n = 0 then l else l.drop (l.length - n)

/-- Embeds `TextChunker._get_overlap_text`. -/
def get_overlap_text (chunk_overlap : Nat) (chunk : List Char) : List Char :=
  let tokens := encode chunk
  if tokens.length ≤ chunk_overlap then chunk
  else decode (sliceLast chunk_overlap tokens)

/-- A produced chunk with its derived metrics. -/
structure Chunk where
  chunk_text : List Char
  chunk_index : Nat
  token_count : Nat
  character_count : Nat
  word_count : Nat

/-- Embeds `TextChunker._create_chunk_metadata` (the chapter/section/keyword
heuristics are not modelled; no claim concerns those fields). -/
def create_chunk_metadata (text : List Char) (idx : Nat) : Chunk :=
  { chunk_text := text, chunk_index := idx, token_count := tokenCount text,
    character_count := text.length, word_count := (Py.pyWords text).length }

/-- Python `\w` for the ASCII range. -/
def isWordChar (c : Char) : Bool := c.isAlphanum || c = '_'

/-- The allow-list of `re.sub` in `_clean_text`: word characters, whitespace
and the punctuation class, everything else is replaced. -/
def isAllowedChar (c : Char) : Bool :=
  isWordChar c || Py.isPySpace c ||
    c = '.' || c = ',' || c = ';' || c = ':' || c = '!' || c = '?' || c = '-' ||
    c = '(' || c = ')' || c = '[' || c = ']' || c = Char.ofNat 34 || c = Char.ofNat 39

/-- Collapse whitespace runs to one space, first substitution of
`_clean_text`; `prev` records whether the previous character was whitespace. -/
def collapseWsAux : List Char → Bool → List Char
  | [], _ => []
  | c :: cs, prev =>
    if Py.isPySpace c then
      if prev then collapseWsAux cs true else ' ' :: collapseWsAux cs true
    else c :: collapseWsAux cs false

/-- Replace runs of disallowed characters by one space, second substitution of
`_clean_text`. -/
def stripSpecialAux : List Char → Bool → List Char
  | [], _ => []
  | c :: cs, prev =>
    if isAllowedChar c then c :: stripSpecialAux cs false
    else if prev then stripSpecialAux cs true
    else ' ' :: stripSpecialAux cs true

/-- Embeds `TextChunker._clean_text`. -/
def clean_text (text : List Char) : List Char :=
  Py.pyStrip (stripSpecialAux (collapseWsAux text false) false)

/-- Sentence terminators of the boundary pattern. -/
def isSentenceEnd (c : Char) : Bool := c = '.' || c = '!' || c = '?'

/-- The character class of the lookahead. -/
def isUpperLetter (c : Char) : Bool := 'A' ≤ c && c ≤ 'Z'

/-- Lookbehind of the boundary pattern on the reversed prefix. -/
def prevIsSentenceEnd : List Char → Bool
  | p :: _ => isSentenceEnd p
  | [] => false

/-- Sentence splitting, embedding the regex split on the pattern that matches
a whitespace run occurring after a sentence terminator and before a capital
letter, removing the matched run.  (The substitution on line 81 of the source
replaces its match by itself and is a no-op, so it is not modelled.)
Single pass: `acc` holds the current segment in reverse; `pend` holds, in
reverse, a whitespace run that started right after a sentence terminator and
is still a split candidate.  When such a run is followed by a capital letter
the segment is cut and the run dropped, exactly the lookbehind/lookahead
semantics of the pattern; otherwise the run is kept in the segment. -/
def splitSentAux : List Char → List Char → List Char → List (List Char)
  | [], acc, pend => [(pend ++ acc).reverse]
  | c :: cs, acc, pend =>
    if pend.isEmpty then
      if Py.isPySpace c && prevIsSentenceEnd acc then splitSentAux cs acc [c]
      else splitSentAux cs (c :: acc) []
    else
      if Py.isPySpace c then splitSentAux cs acc (c :: pend)
      else if isUpperLetter c then acc.reverse :: splitSentAux cs [c] []
      else splitSentAux cs (c :: (pend ++ acc)) []

/-- Embeds `TextChunker._split_into_sentences`. -/
def split_into_sentences (text : List Char) : List (List Char) :=
  ((splitSentAux text [] []).map Py.pyStrip).filter (fun s => s ≠ [])

/-- The sentence-accumulation loop of `TextChunker.chunk_text`. -/
def chunkLoop (chunk_size chunk_overlap : Nat) :
    List (List Char) → List Char → Nat → Nat → List Chunk
  | [], current_chunk, _, chunk_index =>
    if Py.pyStrip current_chunk = [] then []
    else [create_chunk_metadata (Py.pyStrip current_chunk) chunk_index]
  | sentence :: rest, current_chunk, current_tokens, chunk_index =>
    let sentence_tokens := tokenCount sentence
    if current_tokens + sentence_tokens > chunk_size ∧ current_chunk ≠ [] then
      let overlap_text := get_overlap_text chunk_overlap current_chunk
      let new_chunk := overlap_text ++ ' ' :: sentence
      create_chunk_metadata (Py.pyStrip current_chunk) chunk_index ::
        chunkLoop chunk_size chunk_overlap rest new_chunk (tokenCount new_chunk)
          (chunk_index + 1)
    else
      chunkLoop chunk_size chunk_overlap rest (current_chunk ++ ' ' :: sentence)
        (current_tokens + sentence_tokens) chunk_index

/-- Embeds `TextChunker.chunk_text`. -/
def chunk_text (chunk_size chunk_overlap : Nat) (text : List Char) : List Chunk :=
  chunkLoop chunk_size chunk_overlap (split_into_sentences (clean_text text)) [] 0 0

end TextChunker

namespace VectorStore

/-- Embeds `VectorStore._calculate_cosine_similarity`; Python floats are
modelled as real numbers (the `try` wrapper is dead in this model: none of the
arithmetic raises). -/
noncomputable def calculate_cosine_similarity (vector1 vector2 : List ℝ) : ℝ :=
  if vector1.length ≠ vector2.length then 0
  else
    let dot_product := ((vector1.zip vector2).map (fun p => p.1 * p.2)).sum
    let magnitude1 := Real.sqrt ((vector1.map (fun a => a * a)).sum)
    let magnitude2 := Real.sqrt ((vector2.map (fun b => b * b)).sum)
    if magnitude1 = 0 ∨ magnitude2 = 0 then 0
    else max 0 (min 1 (dot_product / (magnitude1 * magnitude2)))

/-- A search-result record as produced by a pool search (the relevant keys of
the Python dict; a missing `similarity` key is `none`). -/
structure PoolResult where
  chunk_content : String := ""
  similarity? : Option ℚ := none
  document_title : Option String := none
  document_category : Option String := none
  source_type : String := ""
deriving DecidableEq

/-- A stored `document_chunks` row as seen by the session fallback query
(which does not select the `embedding` column). -/
structure SessionChunk where
  chunk_content : String
  embedding : List ℚ
  document_title : String

/-- Embeds `VectorStore.search_session_documents`: the RPC result is returned
when non-empty (Python truthiness of `result.data`); otherwise the fallback
query fetches up to `limit` rows of the session's chunks and tags every one
of them with the fixed default similarity `0.8`, computing no cosine
similarity, applying no threshold and no sorting. -/
def search_session_documents (rpcData : List PoolResult)
    (stored : List SessionChunk) (limit : Nat) : List PoolResult :=
  if !rpcData.isEmpty then rpcData
  else
    (stored.take limit).map (fun c =>
      { chunk_content := c.chunk_content,
        similarity? := some (4 / 5 : ℚ),
        document_title := some c.document_title,
        source_type := "session" })

end VectorStore

namespace HybridSearch

open VectorStore

/-- A pool result after the merge step has tagged it (the in-place dict
mutation of `_combine_and_rank_results` modelled as a wrapper). -/
structure RankedResult where
  res : PoolResult
  source_type : String
  source_label : String
  authority_boost : ℚ
  boosted_similarity : ℚ
deriving DecidableEq

/-- One iteration of the tagging loops of
`HybridSearchService._combine_and_rank_results`: label the result, record the
pool's authority boost and set `boosted_similarity` to the raw similarity
plus the boost, or to the boost alone when the `similarity` key is absent. -/
def tagResult (stype slabel : String) (boost : ℚ) (r : PoolResult) : RankedResult :=
  { res := r, source_type := stype, source_label := slabel, authority_boost := boost,
    boosted_similarity :=
      match r.similarity? with
      | some s => s + boost
      | none => boost }

/-- The concatenated, tagged candidate list in pool order public, user,
session, with the boosts `0.1`, `0.05`, `0.15` of the source. -/
def combined_results (pub usr ses : List PoolResult) : List RankedResult :=
  pub.map (tagResult "public" "Common Knowledge Base" (1 / 10)) ++
    usr.map (tagResult "user" "Your Documents" (1 / 20)) ++
    ses.map (tagResult "session" "Current Session" (3 / 20))

/-- The comparison passed to the sort: descending by `boosted_similarity`
(`combined.sort(key=..., reverse=True)`, a stable sort). -/
def resultLE (a b : RankedResult) : Bool := decide (b.boosted_similarity ≤ a.boosted_similarity)

/-- The deduplication key of `_remove_duplicate_chunks`: the first 200
characters of the stripped, lowercased chunk content (the Python `hash` of
that prefix is modelled as the prefix itself). -/
def dedupKey (r : RankedResult) : List Char :=
  ((Py.pyStrip r.res.chunk_content.toList).map Char.toLower).take 200

/-- The loop of `_remove_duplicate_chunks`; `seen` is the set of keys seen so
far. -/
def removeDupAux : List (List Char) → List RankedResult → List RankedResult
  | _, [] => []
  | seen, r :: rest =>
    if dedupKey r ∈ seen then removeDupAux seen rest
    else r :: removeDupAux (dedupKey r :: seen) rest

/-- Embeds `HybridSearchService._remove_duplicate_chunks`. -/
def remove_duplicate_chunks (results : List RankedResult) : List RankedResult :=
  removeDupAux [] results

/-- Embeds `HybridSearchService._combine_and_rank_results`: tag and
concatenate the three pools, sort stably by descending boosted similarity,
then deduplicate. -/
def combine_and_rank_results (pub usr ses : List PoolResult) : List RankedResult :=
  remove_duplicate_chunks ((combined_results pub usr ses).mergeSort resultLE)

/-- Python truthiness of the optional `session_id` argument. -/
def sessionTruthy : Option String → Bool
  | some s => s ≠ ""
  | none => false

/-- The response dict of `hybrid_search` (the fields the claims concern). -/
structure HybridResponse where
  results : List RankedResult
  public_count : Nat
  user_count : Nat
  session_count : Nat
  total_count : Nat
  limit : Nat

/-- Embeds `HybridSearchService.hybrid_search`.  The query-embedding call and
the three pool searches are passed in as fallible functions; each pool search
receives its reduced limit (`limit//2`, `limit//2`, `limit//3`), is guarded
by its own `try`, and an error is replaced by the empty result list.  A
failure of the embedding call escapes through the outer handler. -/
def hybrid_search (embed : Except String (List ℚ))
    (searchPub searchUser searchSess : List ℚ → Nat → Except String (List PoolResult))
    (include_public include_user_docs : Bool) (session_id : Option String)
    (limit : Nat) : Except String HybridResponse :=
  match embed with
  | .error e => .error ("Hybrid search failed: " ++ e)
  | .ok query_embedding =>
    let public_results :=
      if include_public then
        match searchPub query_embedding (limit / 2) with
        | .ok r => r
        | .error _ => []
      else []
    let user_results :=
      if include_user_docs then
        match searchUser query_embedding (limit / 2) with
        | .ok r => r
        | .error _ => []
      else []
    let session_results :=
      if sessionTruthy session_id then
        match searchSess query_embedding (limit / 3) with
        | .ok r => r
        | .error _ => []
      else []
    let combined := combine_and_rank_results public_results user_results session_results
    .ok { results := combined,
          public_count := public_results.length,
          user_count := user_results.length,
          session_count := session_results.length,
          total_count := combined.length,
          limit := limit }

end HybridSearch

namespace RagService

open HybridSearch

/-- The credential slots of the generative-model provider. -/
inductive Cred where
  | primary
  | backup
deriving DecidableEq

/-- Failure classes of a generation call: the rate-limit/quota error
(`ResourceExhausted`) and every other exception. -/
inductive GenError where
  | resourceExhausted
  | other (msg : String)
deriving DecidableEq

/-- The globally configured credential (`genai.configure`) together with the
credential in effect at each generation call made so far. -/
structure GenTrace where
  active : Cred
  calls : List Cred
deriving DecidableEq

/-- Models `genai.configure(api_key=...)`. -/
def configureKey (c : Cred) (st : GenTrace) : GenTrace := { st with active := c }

/-- Models a `generate_content_async` call, performed under the currently
configured credential. -/
def recordCall (st : GenTrace) : GenTrace := { st with calls := st.calls ++ [st.active] }

/-- At service start the primary key is configured. -/
def initTrace : GenTrace := { active := .primary, calls := [] }

/-- Embeds `RAGService.generate_with_fallback`.  The outcome of an attempt
against the primary and (if reached) against the backup credential are inputs;
the returned trace shows which credential each call used and which credential
is configured on exit. -/
def generate_with_fallback (hasBackupKey : Bool)
    (primaryResult backupResult : Except GenError String) :
    Except GenError String × GenTrace :=
  let st := recordCall initTrace
  match primaryResult with
  | .ok text => (.ok text, st)
  | .error .resourceExhausted =>
    if hasBackupKey then
      let st := recordCall (configureKey .backup st)
      match backupResult with
      | .ok text => (.ok text, configureKey .primary st)
      | .error _ => (.error .resourceExhausted, configureKey .primary st)
    else (.error .resourceExhausted, st)
  | .error (.other msg) => (.error (.other msg), st)

/-- Rendering of one public chunk in `_build_hybrid_context`. -/
def renderPublicChunk (c : RankedResult) : List String :=
  ["Source: " ++ c.res.document_title.getD "Unknown Document" ++ " (" ++
      c.res.document_category.getD "General" ++ ")",
    "Content: " ++ c.res.chunk_content,
    "---"]

/-- Rendering of one user or session chunk in `_build_hybrid_context`. -/
def renderPlainChunk (c : RankedResult) : List String :=
  ["Source: " ++ c.res.document_title.getD "Unknown Document",
    "Content: " ++ c.res.chunk_content,
    "---"]

/-- Embeds `RAGService._build_hybrid_context`. -/
def build_hybrid_context (chunks : List RankedResult) : String :=
  if chunks.isEmpty then "Based on general legal knowledge and procedures:"
  else
    let public_chunks := chunks.filter (fun c => c.source_type == "public")
    let user_chunks := chunks.filter (fun c => c.source_type == "user")
    let session_chunks := chunks.filter (fun c => c.source_type == "session")
    let context_parts :=
      (if public_chunks.isEmpty then []
       else "=== LEGAL KNOWLEDGE BASE ===" :: public_chunks.flatMap renderPublicChunk) ++
      (if user_chunks.isEmpty then []
       else "=== YOUR DOCUMENTS ===" :: user_chunks.flatMap renderPlainChunk) ++
      (if session_chunks.isEmpty then []
       else "=== CURRENT SESSION DOCUMENTS ===" :: session_chunks.flatMap renderPlainChunk)
    String.intercalate "\n" context_parts

end RagService

namespace EmbeddingService

/-- Python `str.strip()` on a `String`. -/
def pyStripStr (s : String) : String := String.mk (Py.pyStrip s.toList)

/-- Embeds `EmbeddingService._clean_text`: collapse whitespace by
split-and-join, then truncate to the 20000-character ceiling. -/
def clean_text (text : String) : String :=
  if text = "" then ""
  else
    let cleaned := String.intercalate " " ((Py.pyWords text.toList).map String.mk)
    if 20000 < cleaned.length then String.mk (cleaned.toList.take 20000) else cleaned

/-- Embeds `EmbeddingService.generate_embedding`; the provider is an input
and the second component records the contents of the provider calls made.
Empty or whitespace-only text raises before any provider call (the
`ValueError` is re-wrapped by the handler). -/
def generate_embedding (provider : String → Except String (List ℚ))
    (text : String) : Except String (List ℚ) × List String :=
  if text = "" ∨ pyStripStr text = "" then
    (.error "Failed to generate embedding: Text cannot be empty", [])
  else
    let cleaned_text := clean_text text
    match provider cleaned_text with
    | .ok emb => (.ok emb, [cleaned_text])
    | .error e => (.error ("Failed to generate embedding: " ++ e), [cleaned_text])

/-- Embeds `EmbeddingService.generate_query_embedding`: the query is cleaned
and sent to the provider without any emptiness check. -/
def generate_query_embedding (provider : String → Except String (List ℚ))
    (query : String) : Except String (List ℚ) × List String :=
  let cleaned_query := clean_text query
  match provider cleaned_query with
  | .ok emb => (.ok emb, [cleaned_query])
  | .error e => (.error ("Failed to generate query embedding: " ++ e), [cleaned_query])

end EmbeddingService

/-! Concrete inputs used by witnesses and counterexamples. -/

namespace Fixtures

open VectorStore HybridSearch

/-- Two stored session chunks with different embeddings. -/
def c3Stored : List SessionChunk :=
  [{ chunk_content := "first chunk text", embedding := [1, 0], document_title := "Doc A" },
   { chunk_content := "second chunk text", embedding := [0, 1], document_title := "Doc B" }]

/-- A public pool result carrying a raw similarity. -/
def c1Pub : List PoolResult := [{ chunk_content := "public chunk", similarity? := some (1 / 2) }]

/-- A user pool result without a similarity key. -/
def c1Usr : List PoolResult := [{ chunk_content := "user chunk", similarity? := none }]

/-- The tagged form of the result in `c1Pub`. -/
def c1Tagged : RankedResult :=
  tagResult "public" "Common Knowledge Base" (1 / 10)
    { chunk_content := "public chunk", similarity? := some (1 / 2) }

/-- A public and a user result whose boosted similarities tie at `3/5`. -/
def c2Pub : List PoolResult := [{ chunk_content := "alpha text", similarity? := some (1 / 2) }]

/-- See `c2Pub`. -/
def c2Usr : List PoolResult := [{ chunk_content := "beta text", similarity? := some (11 / 20) }]

/-- The tagged form of the result in `c2Pub`. -/
def c2TaggedPub : RankedResult :=
  tagResult "public" "Common Knowledge Base" (1 / 10)
    { chunk_content := "alpha text", similarity? := some (1 / 2) }

/-- The tagged form of the result in `c2Usr`. -/
def c2TaggedUsr : RankedResult :=
  tagResult "user" "Your Documents" (1 / 20)
    { chunk_content := "beta text", similarity? := some (11 / 20) }

/-- Five public candidates with pairwise distinct contents. -/
def c10Pub : List PoolResult :=
  [{ chunk_content := "pub chunk a", similarity? := some 5 },
   { chunk_content := "pub chunk b", similarity? := some 4 },
   { chunk_content := "pub chunk c", similarity? := some 3 },
   { chunk_content := "pub chunk d", similarity? := some 2 },
   { chunk_content := "pub chunk e", similarity? := some 1 }]

/-- Five user candidates with pairwise distinct contents. -/
def c10Usr : List PoolResult :=
  [{ chunk_content := "usr chunk a", similarity? := some 5 },
   { chunk_content := "usr chunk b", similarity? := some 4 },
   { chunk_content := "usr chunk c", similarity? := some 3 },
   { chunk_content := "usr chunk d", similarity? := some 2 },
   { chunk_content := "usr chunk e", similarity? := some 1 }]

/-- Three session candidates with pairwise distinct contents. -/
def c10Ses : List PoolResult :=
  [{ chunk_content := "ses chunk a", similarity? := some 3 },
   { chunk_content := "ses chunk b", similarity? := some 2 },
   { chunk_content := "ses chunk c", similarity? := some 1 }]

/-- A public pool search honouring every limit it receives. -/
def c10SearchPub : List ℚ → Nat → Except String (List PoolResult) :=
  fun _ n => .ok (c10Pub.take n)

/-- A user pool search honouring every limit it receives. -/
def c10SearchUsr : List ℚ → Nat → Except String (List PoolResult) :=
  fun _ n => .ok (c10Usr.take n)

/-- A session pool search honouring every limit it receives. -/
def c10SearchSes : List ℚ → Nat → Except String (List PoolResult) :=
  fun _ n => .ok (c10Ses.take n)

/-- The result count of a hybrid-search outcome (zero on failure). -/
def resultsLength : Except String HybridResponse → Nat
  | .ok r => r.results.length
  | .error _ => 0

/-- A single sentence of 1001 one-letter words: 1001 tokens under the word
token model, with no sentence boundary inside. -/
def c4LongSentence : List Char := Py.joinWords (List.replicate 1001 ['a'])

/-- A small two-sentence text. -/
def c4SmallText : List Char := "Hello there. Grand day.".toList

end Fixtures

/-! Claim theorems and their witnesses. -/

/-- Claim C7: on the empty list of retrieved chunks the context assembler
returns the fixed non-empty fallback string instructing the generator to
rely on general legal knowledge; it cannot fail and does not return a blank
context. -/
theorem build_hybrid_context_empty_fallback :
    RagService.build_hybrid_context [] = "Based on general legal knowledge and procedures:" ∧
      RagService.build_hybrid_context [] ≠ "" :=
  ⟨rfl, by decide⟩

/-- Claim C6: when the query embedding succeeds, `hybrid_search` always
returns a result (a pool failure never propagates), and a pool search that
fails contributes exactly what a pool search returning the empty list would,
for each of the three pools, leaving the other pools' results in place. -/
theorem hybrid_search_pool_failure_isolated :
    ∀ (qe : List ℚ)
      (searchPub searchUser searchSess : List ℚ → Nat → Except String (List VectorStore.PoolResult))
      (include_public include_user_docs : Bool) (session_id : Option String)
      (limit : Nat) (e1 e2 e3 : String),
      (∃ resp, HybridSearch.hybrid_search (.ok qe) searchPub searchUser searchSess
          include_public include_user_docs session_id limit = .ok resp) ∧
      HybridSearch.hybrid_search (.ok qe) (fun _ _ => .error e1) searchUser searchSess
          include_public include_user_docs session_id limit =
        HybridSearch.hybrid_search (.ok qe) (fun _ _ => .ok []) searchUser searchSess
          include_public include_user_docs session_id limit ∧
      HybridSearch.hybrid_search (.ok qe) searchPub (fun _ _ => .error e2) searchSess
          include_public include_user_docs session_id limit =
        HybridSearch.hybrid_search (.ok qe) searchPub (fun _ _ => .ok []) searchSess
          include_public include_user_docs session_id limit ∧
      HybridSearch.hybrid_search (.ok qe) searchPub searchUser (fun _ _ => .error e3)
          include_public include_user_docs session_id limit =
        HybridSearch.hybrid_search (.ok qe) searchPub searchUser (fun _ _ => .ok [])
          include_public include_user_docs session_id limit :=
  fun _ _ _ _ _ _ _ _ _ _ _ => ⟨⟨_, rfl⟩, rfl, rfl, rfl⟩

/-- Claim C3 (code bug): in the session adapter's non-RPC fallback path every
candidate receives the fixed placeholder similarity `0.8` independently of
its stored embedding; no cosine similarity is computed (the fallback query
does not even select the embedding column), no similarity threshold is
applied and no sorting happens. -/
theorem search_session_documents_placeholder :
    (VectorStore.search_session_documents [] Fixtures.c3Stored 5).map
        (fun r => r.similarity?) = [some (4 / 5), some (4 / 5)] ∧
      (Fixtures.c3Stored.get ⟨0, by decide⟩).embedding ≠
        (Fixtures.c3Stored.get ⟨1, by decide⟩).embedding :=
  ⟨rfl, by decide⟩

/-- Claim C8: the primary credential is tried first; exactly on a
rate-limit/quota failure, and only when a backup credential is configured,
one retry is made against the backup; the primary credential is the active
one on exit in every case; a non-quota failure, and a quota failure without
a backup, propagate immediately without retry. -/
theorem generate_with_fallback_policy :
    ∀ (hasBackupKey : Bool) (primaryResult backupResult : Except RagService.GenError String),
      (RagService.generate_with_fallback hasBackupKey primaryResult backupResult).2.active =
          RagService.Cred.primary ∧
      (RagService.generate_with_fallback hasBackupKey primaryResult backupResult).2.calls.head? =
          some RagService.Cred.primary ∧
      ((RagService.generate_with_fallback hasBackupKey primaryResult backupResult).2.calls =
          [RagService.Cred.primary, RagService.Cred.backup] ↔
        primaryResult = .error .resourceExhausted ∧ hasBackupKey = true) ∧
      (∀ t, primaryResult = .ok t →
        RagService.generate_with_fallback hasBackupKey primaryResult backupResult =
          (.ok t, ⟨.primary, [.primary]⟩)) ∧
      (∀ m, primaryResult = .error (.other m) →
        RagService.generate_with_fallback hasBackupKey primaryResult backupResult =
          (.error (.other m), ⟨.primary, [.primary]⟩)) ∧
      (primaryResult = .error .resourceExhausted → hasBackupKey = false →
        RagService.generate_with_fallback hasBackupKey primaryResult backupResult =
          (.error .resourceExhausted, ⟨.primary, [.primary]⟩)) ∧
      (primaryResult = .error .resourceExhausted → hasBackupKey = true →
        ∀ t, backupResult = .ok t →
          RagService.generate_with_fallback hasBackupKey primaryResult backupResult =
            (.ok t, ⟨.primary, [.primary, .backup]⟩)) ∧
      (primaryResult = .error .resourceExhausted → hasBackupKey = true →
        ∀ e, backupResult = .error e →
          RagService.generate_with_fallback hasBackupKey primaryResult backupResult =
            (.error .resourceExhausted, ⟨.primary, [.primary, .backup]⟩)) := by
  intro hasBackupKey primaryResult backupResult
  rcases primaryResult with e | t
  · cases e with
    | resourceExhausted =>
      cases hasBackupKey
      · simp [RagService.generate_with_fallback, RagService.recordCall, RagService.initTrace,
          RagService.configureKey]
      · rcases backupResult with e2 | t2 <;>
          simp [RagService.generate_with_fallback, RagService.recordCall, RagService.initTrace,
            RagService.configureKey]
    | other m =>
      simp [RagService.generate_with_fallback, RagService.recordCall, RagService.initTrace,
        RagService.configureKey]
  · simp [RagService.generate_with_fallback, RagService.recordCall, RagService.initTrace,
      RagService.configureKey]

/-- Witness for claim C8, the concrete quota-fallback scenario: the primary
call hits the quota error, the configured backup succeeds, its text is
returned, and the primary credential is active again afterwards. -/
theorem generate_with_fallback_policy_witness :
    RagService.generate_with_fallback true (.error .resourceExhausted) (.ok "backup response") =
      (.ok "backup response", ⟨.primary, [.primary, .backup]⟩) :=
  (generate_with_fallback_policy true (.error .resourceExhausted)
    (.ok "backup response")).2.2.2.2.2.2.1 rfl rfl "backup response" rfl

/-- Claim C9 counterexample: the query-embedding path performs no emptiness
check: on the empty query it still calls the external provider (with empty
content) and returns the provider's result instead of rejecting the input
with an error. -/
theorem generate_query_embedding_no_empty_check :
    EmbeddingService.generate_query_embedding (fun _ => .ok ([] : List ℚ)) "" =
      (.ok ([] : List ℚ), [""]) := rfl

/-- Claim C9 amended: `generate_embedding` rejects empty or whitespace-only
text immediately with an input error and performs no provider call, while
`generate_query_embedding` performs no emptiness check at all: for every
query it makes exactly one provider call whose content is the cleaned query,
which is empty for an empty or whitespace-only query. -/
theorem embedding_empty_input_policy :
    (∀ (provider : String → Except String (List ℚ)) (text : String),
        text = "" ∨ EmbeddingService.pyStripStr text = "" →
        EmbeddingService.generate_embedding provider text =
          (.error "Failed to generate embedding: Text cannot be empty", [])) ∧
      ∀ (provider : String → Except String (List ℚ)) (query : String),
        (EmbeddingService.generate_query_embedding provider query).2 =
          [EmbeddingService.clean_text query] := by
  constructor
  · intro provider text h
    simp only [EmbeddingService.generate_embedding, if_pos h]
  · intro provider query
    cases hp : provider (EmbeddingService.clean_text query) <;>
      simp [EmbeddingService.generate_query_embedding, hp]

/-- Witness for claim C9 amended: whitespace-only document text is rejected
with no provider call; a query makes exactly one provider call with the
cleaned query content. -/
theorem embedding_empty_input_policy_witness :
    EmbeddingService.generate_embedding (fun _ => .ok ([] : List ℚ)) "   " =
        (.error "Failed to generate embedding: Text cannot be empty", []) ∧
      (EmbeddingService.generate_query_embedding (fun _ => .ok ([] : List ℚ)) " hi ").2 =
        [EmbeddingService.clean_text " hi "] :=
  ⟨embedding_empty_input_policy.1 (fun _ => .ok ([] : List ℚ)) "   " (Or.inr (by decide)),
    embedding_empty_input_policy.2 (fun _ => .ok ([] : List ℚ)) " hi "⟩

/-- The deduplication loop returns a sublist of its input, so it preserves
relative order and drops elements only. -/
theorem removeDupAux_sublist :
    ∀ (l : List HybridSearch.RankedResult) (seen : List (List Char)),
      HybridSearch.removeDupAux seen l <+ l := by
  intro l
  induction l with
  | nil => intro seen; exact List.Sublist.refl _
  | cons r rest ih =>
    intro seen
    simp only [HybridSearch.removeDupAux]
    split
    · exact (ih seen).cons r
    · exact (ih _).cons₂ r

/-- The sort comparison is transitive. -/
theorem resultLE_trans : ∀ a b c : HybridSearch.RankedResult,
    HybridSearch.resultLE a b → HybridSearch.resultLE b c → HybridSearch.resultLE a c := by
  intro a b c hab hbc
  simp only [HybridSearch.resultLE, decide_eq_true_eq] at *
  exact le_trans hbc hab

/-- The sort comparison is total. -/
theorem resultLE_total : ∀ a b : HybridSearch.RankedResult,
    (HybridSearch.resultLE a b || HybridSearch.resultLE b a) = true := by
  intro a b
  simp only [HybridSearch.resultLE, Bool.or_eq_true, decide_eq_true_eq]
  exact le_total b.boosted_similarity a.boosted_similarity

/-- Every element of the merged, deduplicated output comes from the tagged
concatenation of the three pools. -/
theorem mem_combined_of_mem_combine {pub usr ses : List VectorStore.PoolResult}
    {r : HybridSearch.RankedResult}
    (h : r ∈ HybridSearch.combine_and_rank_results pub usr ses) :
    r ∈ HybridSearch.combined_results pub usr ses := by
  have h1 : r ∈ (HybridSearch.combined_results pub usr ses).mergeSort HybridSearch.resultLE :=
    (removeDupAux_sublist _ []).subset h
  exact List.mem_mergeSort.mp h1

/-- Claim C1: every result in the merged output carries the authority boost
of its pool (public `0.10`, user `0.05`, session `0.15`), its boosted
similarity is the raw similarity plus that boost, and a result without a
similarity field gets the boost alone instead of failing. -/
theorem boost_correctness :
    ∀ (pub usr ses : List VectorStore.PoolResult) (r : HybridSearch.RankedResult),
      r ∈ HybridSearch.combine_and_rank_results pub usr ses →
      (r.source_type = "public" ∨ r.source_type = "user" ∨ r.source_type = "session") ∧
      r.boosted_similarity = r.res.similarity?.getD 0 + r.authority_boost ∧
      (r.source_type = "public" → r.authority_boost = 1 / 10) ∧
      (r.source_type = "user" → r.authority_boost = 1 / 20) ∧
      (r.source_type = "session" → r.authority_boost = 3 / 20) ∧
      (r.res.similarity? = none → r.boosted_similarity = r.authority_boost) := by
  intro pub usr ses r hr
  have h := mem_combined_of_mem_combine hr
  simp only [HybridSearch.combined_results, List.mem_append, List.mem_map] at h
  rcases h with (⟨x, hx, rfl⟩ | ⟨x, hx, rfl⟩) | ⟨x, hx, rfl⟩ <;>
    rcases hsim : x.similarity? with _ | s <;>
      simp [HybridSearch.tagResult, hsim]

/-- Witness for claim C1 at a concrete public result with raw similarity
`1/2`. -/
theorem boost_correctness_witness :
    (Fixtures.c1Tagged.source_type = "public" ∨ Fixtures.c1Tagged.source_type = "user" ∨
        Fixtures.c1Tagged.source_type = "session") ∧
      Fixtures.c1Tagged.boosted_similarity =
        Fixtures.c1Tagged.res.similarity?.getD 0 + Fixtures.c1Tagged.authority_boost ∧
      (Fixtures.c1Tagged.source_type = "public" → Fixtures.c1Tagged.authority_boost = 1 / 10) ∧
      (Fixtures.c1Tagged.source_type = "user" → Fixtures.c1Tagged.authority_boost = 1 / 20) ∧
      (Fixtures.c1Tagged.source_type = "session" → Fixtures.c1Tagged.authority_boost = 3 / 20) ∧
      (Fixtures.c1Tagged.res.similarity? = none →
        Fixtures.c1Tagged.boosted_similarity = Fixtures.c1Tagged.authority_boost) :=
  boost_correctness Fixtures.c1Pub Fixtures.c1Usr [] Fixtures.c1Tagged
    (by with_unfolding_all decide)

/-- Claim C2: the merged output is sorted in non-increasing order of boosted
similarity, the sort is stable (two candidates already correctly ordered in
the pool-order concatenation, in particular ties, keep their relative
order), and the deduplication pass returns a sublist of the sorted list, so
the ordering survives it. -/
theorem ranking_monotonicity :
    ∀ pub usr ses : List VectorStore.PoolResult,
      List.Pairwise (fun a b => b.boosted_similarity ≤ a.boosted_similarity)
          (HybridSearch.combine_and_rank_results pub usr ses) ∧
      (∀ a b : HybridSearch.RankedResult,
        [a, b] <+ HybridSearch.combined_results pub usr ses →
        b.boosted_similarity ≤ a.boosted_similarity →
        [a, b] <+ (HybridSearch.combined_results pub usr ses).mergeSort HybridSearch.resultLE) ∧
      HybridSearch.combine_and_rank_results pub usr ses <+
        (HybridSearch.combined_results pub usr ses).mergeSort HybridSearch.resultLE := by
  intro pub usr ses
  refine ⟨?_, ?_, removeDupAux_sublist _ []⟩
  · have hs := List.sorted_mergeSort resultLE_trans resultLE_total
      (HybridSearch.combined_results pub usr ses)
    have hs' : List.Pairwise (fun a b => b.boosted_similarity ≤ a.boosted_similarity)
        ((HybridSearch.combined_results pub usr ses).mergeSort HybridSearch.resultLE) :=
      hs.imp (fun h => by simpa [HybridSearch.resultLE] using h)
    exact List.Pairwise.sublist (removeDupAux_sublist _ []) hs'
  · intro a b hab hle
    exact List.pair_sublist_mergeSort resultLE_trans resultLE_total
      (by simpa [HybridSearch.resultLE] using hle) hab

/-- Witness for claim C2 at a tie: a public and a user result with equal
boosted similarity `3/5` keep their pool order through the sort. -/
theorem ranking_monotonicity_witness :
    [Fixtures.c2TaggedPub, Fixtures.c2TaggedUsr] <+
      (HybridSearch.combined_results Fixtures.c2Pub Fixtures.c2Usr []).mergeSort
        HybridSearch.resultLE :=
  (ranking_monotonicity Fixtures.c2Pub Fixtures.c2Usr []).2.1 Fixtures.c2TaggedPub
    Fixtures.c2TaggedUsr (List.Sublist.refl _) (by with_unfolding_all decide)

/-- The merged output is at most as long as the three pool result lists
together. -/
theorem combine_and_rank_length_le (pub usr ses : List VectorStore.PoolResult) :
    (HybridSearch.combine_and_rank_results pub usr ses).length ≤
      pub.length + usr.length + ses.length := by
  have h1 := List.Sublist.length_le
    (removeDupAux_sublist ((HybridSearch.combined_results pub usr ses).mergeSort
      HybridSearch.resultLE) [])
  rw [List.length_mergeSort] at h1
  have h2 : (HybridSearch.combined_results pub usr ses).length =
      pub.length + usr.length + ses.length := by
    simp [HybridSearch.combined_results]
    try omega
  exact le_trans h1 (le_of_eq h2)

/-- Claim C10: each pool is queried with its reduced limit (`limit//2`,
`limit//2`, `limit//3`); when every pool search honours the limit it
receives, the merged, deduplicated output is bounded by
`limit/2 + limit/2 + limit/3` — and it is never truncated to `limit`, so it
can exceed `limit`: with the default `limit = 10` the concrete compliant
pools below yield 13 results. -/
theorem hybrid_search_limits :
    (∀ (qe : List ℚ)
        (searchPub searchUser searchSess : List ℚ → Nat → Except String (List VectorStore.PoolResult))
        (limit : Nat),
        (∀ v n r, searchPub v n = .ok r → r.length ≤ n) →
        (∀ v n r, searchUser v n = .ok r → r.length ≤ n) →
        (∀ v n r, searchSess v n = .ok r → r.length ≤ n) →
        Fixtures.resultsLength (HybridSearch.hybrid_search (.ok qe) searchPub searchUser
            searchSess true true (some "session") limit) ≤
          limit / 2 + limit / 2 + limit / 3) ∧
      Fixtures.resultsLength (HybridSearch.hybrid_search (.ok []) Fixtures.c10SearchPub
          Fixtures.c10SearchUsr Fixtures.c10SearchSes true true (some "session") 10) = 13 ∧
      10 < Fixtures.resultsLength (HybridSearch.hybrid_search (.ok []) Fixtures.c10SearchPub
          Fixtures.c10SearchUsr Fixtures.c10SearchSes true true (some "session") 10) := by
  refine ⟨?_, by with_unfolding_all decide, by with_unfolding_all decide⟩
  intro qe searchPub searchUser searchSess limit hp hu hs
  have hA : (match searchPub qe (limit / 2) with
      | .ok r => r
      | .error _ => []).length ≤ limit / 2 := by
    rcases hps : searchPub qe (limit / 2) with e | r
    · simp
    · simpa using hp qe (limit / 2) r hps
  have hB : (match searchUser qe (limit / 2) with
      | .ok r => r
      | .error _ => []).length ≤ limit / 2 := by
    rcases hus : searchUser qe (limit / 2) with e | r
    · simp
    · simpa using hu qe (limit / 2) r hus
  have hC : (match searchSess qe (limit / 3) with
      | .ok r => r
      | .error _ => []).length ≤ limit / 3 := by
    rcases hss : searchSess qe (limit / 3) with e | r
    · simp
    · simpa using hs qe (limit / 3) r hss
  simp only [HybridSearch.hybrid_search, HybridSearch.sessionTruthy, Fixtures.resultsLength,
    if_true, ne_eq]
  refine le_trans (combine_and_rank_length_le _ _ _) ?_
  exact Nat.add_le_add (Nat.add_le_add hA hB) hC

/-- Witness for claim C10: the concrete compliant pool searches at
`limit = 10` stay within the bound `5 + 5 + 3`. -/
theorem hybrid_search_limits_witness :
    Fixtures.resultsLength (HybridSearch.hybrid_search (.ok []) Fixtures.c10SearchPub
        Fixtures.c10SearchUsr Fixtures.c10SearchSes true true (some "session") 10) ≤
      10 / 2 + 10 / 2 + 10 / 3 :=
  hybrid_search_limits.1 [] Fixtures.c10SearchPub Fixtures.c10SearchUsr Fixtures.c10SearchSes 10
    (fun v n r h => by
      obtain rfl : Fixtures.c10Pub.take n = r := Except.ok.inj h
      simp)
    (fun v n r h => by
      obtain rfl : Fixtures.c10Usr.take n = r := Except.ok.inj h
      simp)
    (fun v n r h => by
      obtain rfl : Fixtures.c10Ses.take n = r := Except.ok.inj h
      simp)

/-- Zipping a vector with itself multiplies each entry with itself. -/
theorem zip_self_map_mul (v : List ℝ) :
    (v.zip v).map (fun p => p.1 * p.2) = v.map (fun x => x * x) := by
  induction v with
  | nil => rfl
  | cons x xs ih => simpa using ih

/-- The clamp `max 0 (min 1 _)` keeps every branch of the similarity inside
the unit interval. -/
theorem cosine_bounds_aux (a b : List ℝ) :
    0 ≤ VectorStore.calculate_cosine_similarity a b ∧
      VectorStore.calculate_cosine_similarity a b ≤ 1 := by
  simp only [VectorStore.calculate_cosine_similarity]
  split
  · exact ⟨le_rfl, zero_le_one⟩
  · split
    · exact ⟨le_rfl, zero_le_one⟩
    · exact ⟨le_max_left _ _, max_le zero_le_one (min_le_left _ _)⟩

/-- A vector of zeros in the first slot hits the zero-magnitude branch. -/
theorem cosine_zero_left_aux (a b : List ℝ) (h : ∀ x ∈ a, x = 0) :
    VectorStore.calculate_cosine_similarity a b = 0 := by
  have hS : ((a.map fun y => y * y).sum) = 0 := by
    refine List.sum_eq_zero ?_
    intro y hy
    rcases List.mem_map.1 hy with ⟨x, hx, rfl⟩
    rw [h x hx, mul_zero]
  simp only [VectorStore.calculate_cosine_similarity]
  split
  · rfl
  · rw [if_pos (Or.inl (by rw [hS, Real.sqrt_zero]))]

/-- A vector of zeros in the second slot hits the zero-magnitude branch. -/
theorem cosine_zero_right_aux (a b : List ℝ) (h : ∀ x ∈ b, x = 0) :
    VectorStore.calculate_cosine_similarity a b = 0 := by
  have hS : ((b.map fun y => y * y).sum) = 0 := by
    refine List.sum_eq_zero ?_
    intro y hy
    rcases List.mem_map.1 hy with ⟨x, hx, rfl⟩
    rw [h x hx, mul_zero]
  simp only [VectorStore.calculate_cosine_similarity]
  split
  · rfl
  · rw [if_pos (Or.inr (by rw [hS, Real.sqrt_zero]))]

/-- On a non-zero vector paired with itself the unclamped ratio is exactly
one. -/
theorem cosine_self_aux (a : List ℝ) (h : ∃ x ∈ a, x ≠ 0) :
    VectorStore.calculate_cosine_similarity a a = 1 := by
  obtain ⟨x, hx, hxne⟩ := h
  have hS : 0 < (a.map fun y => y * y).sum := by
    have hmem : x * x ∈ a.map fun y => y * y := List.mem_map_of_mem _ hx
    have hnn : ∀ y ∈ a.map fun y => y * y, 0 ≤ y := by
      intro y hy
      rcases List.mem_map.1 hy with ⟨z, _, rfl⟩
      exact mul_self_nonneg z
    exact lt_of_lt_of_le (mul_self_pos.2 hxne) (List.single_le_sum hnn _ hmem)
  have hm : Real.sqrt ((a.map fun y => y * y).sum) ≠ 0 := ne_of_gt (Real.sqrt_pos.2 hS)
  simp only [VectorStore.calculate_cosine_similarity, zip_self_map_mul]
  rw [if_neg (show ¬a.length ≠ a.length by simp), if_neg (by rw [not_or]; exact ⟨hm, hm⟩),
    Real.mul_self_sqrt hS.le, div_self (ne_of_gt hS)]
  simp

/-- Mismatched dimensions short-circuit to zero. -/
theorem cosine_dim_aux (a b : List ℝ) (h : a.length ≠ b.length) :
    VectorStore.calculate_cosine_similarity a b = 0 := by
  simp only [VectorStore.calculate_cosine_similarity]
  rw [if_pos h]

/-- Claim C5: cosine similarity always lies in the unit interval; it is `1`
on any non-zero vector paired with itself; a zero vector on either side
yields `0` (no error, no NaN); and mismatched dimensions yield `0`. -/
theorem cosine_similarity_bounds :
    (∀ a b : List ℝ, 0 ≤ VectorStore.calculate_cosine_similarity a b ∧
        VectorStore.calculate_cosine_similarity a b ≤ 1) ∧
      (∀ a : List ℝ, (∃ x ∈ a, x ≠ 0) → VectorStore.calculate_cosine_similarity a a = 1) ∧
      (∀ a b : List ℝ, (∀ x ∈ a, x = 0) →
        VectorStore.calculate_cosine_similarity a b = 0 ∧
          VectorStore.calculate_cosine_similarity b a = 0) ∧
      (∀ a b : List ℝ, a.length ≠ b.length → VectorStore.calculate_cosine_similarity a b = 0) :=
  ⟨cosine_bounds_aux, cosine_self_aux,
    fun a b h => ⟨cosine_zero_left_aux a b h, cosine_zero_right_aux b a h⟩,
    cosine_dim_aux⟩

/-- Witness for claim C5 at concrete vectors. -/
theorem cosine_similarity_bounds_witness :
    (0 ≤ VectorStore.calculate_cosine_similarity [1, 0] [0, 1] ∧
        VectorStore.calculate_cosine_similarity [1, 0] [0, 1] ≤ 1) ∧
      VectorStore.calculate_cosine_similarity [1, 0] [1, 0] = 1 ∧
      (VectorStore.calculate_cosine_similarity [0, 0] [1, 2] = 0 ∧
        VectorStore.calculate_cosine_similarity [1, 2] [0, 0] = 0) ∧
      VectorStore.calculate_cosine_similarity [1] [1, 0] = 0 :=
  ⟨cosine_similarity_bounds.1 [1, 0] [0, 1],
    cosine_similarity_bounds.2.1 [1, 0] ⟨1, by simp, one_ne_zero⟩,
    cosine_similarity_bounds.2.2.1 [0, 0] [1, 2] (by simp),
    cosine_similarity_bounds.2.2.2 [1] [1, 0] (by simp)⟩

/-- Splitting distributes over a single-space join. -/
theorem wordsAux_append_space (a b acc : List Char) :
    Py.wordsAux (a ++ ' ' :: b) acc = Py.wordsAux a acc ++ Py.wordsAux b [] := by
  induction a generalizing acc with
  | nil => by_cases h : acc = [] <;> simp [Py.wordsAux, Py.isPySpace, h]
  | cons c cs ih =>
    by_cases hc : Py.isPySpace c
    · by_cases h : acc = [] <;> simp [Py.wordsAux, hc, h, ih]
    · simp [Py.wordsAux, hc, ih]

/-- Splitting an all-whitespace text yields at most the pending word. -/
theorem wordsAux_all_space (t : List Char) (ht : ∀ c ∈ t, Py.isPySpace c) :
    ∀ acc, Py.wordsAux t acc = if acc = [] then [] else [acc.reverse] := by
  induction t with
  | nil => intro acc; rfl
  | cons c cs ih =>
    intro acc
    have hc : Py.isPySpace c := ht c (by simp)
    have ih' := ih (fun d hd => ht d (by simp [hd]))
    by_cases h : acc = [] <;> simp [Py.wordsAux, hc, h, ih']

/-- An all-whitespace suffix does not change the split. -/
theorem wordsAux_append_all_space (t : List Char) (ht : ∀ c ∈ t, Py.isPySpace c) :
    ∀ (l acc : List Char), Py.wordsAux (l ++ t) acc = Py.wordsAux l acc := by
  intro l
  induction l with
  | nil =>
    intro acc
    simp only [List.nil_append]
    rw [wordsAux_all_space t ht acc]
    rfl
  | cons c cs ih =>
    intro acc
    by_cases hc : Py.isPySpace c
    · by_cases h : acc = [] <;> simp [Py.wordsAux, hc, h, ih]
    · simp [Py.wordsAux, hc, ih]

/-- Leading whitespace does not change the split. -/
theorem wordsAux_dropWhile (l : List Char) :
    Py.wordsAux (l.dropWhile Py.isPySpace) [] = Py.wordsAux l [] := by
  induction l with
  | nil => rfl
  | cons c cs ih =>
    by_cases hc : Py.isPySpace c <;> simp [List.dropWhile_cons, hc, Py.wordsAux, ih]

/-- `str.strip()` does not change the split into words. -/
theorem pyWords_pyStrip (l : List Char) : Py.pyWords (Py.pyStrip l) = Py.pyWords l := by
  have hsplit : ((l.dropWhile Py.isPySpace).reverse.dropWhile Py.isPySpace).reverse ++
      ((l.dropWhile Py.isPySpace).reverse.takeWhile Py.isPySpace).reverse =
      l.dropWhile Py.isPySpace := by
    rw [← List.reverse_append, List.takeWhile_append_dropWhile, List.reverse_reverse]
  have ht : ∀ c ∈ ((l.dropWhile Py.isPySpace).reverse.takeWhile Py.isPySpace).reverse,
      Py.isPySpace c := by
    intro c hc
    rw [List.mem_reverse] at hc
    exact List.mem_takeWhile_imp hc
  calc Py.pyWords (Py.pyStrip l)
      = Py.wordsAux (((l.dropWhile Py.isPySpace).reverse.dropWhile Py.isPySpace).reverse ++
          ((l.dropWhile Py.isPySpace).reverse.takeWhile Py.isPySpace).reverse) [] :=
        (wordsAux_append_all_space _ ht _ _).symm
    _ = Py.wordsAux (l.dropWhile Py.isPySpace) [] := by rw [hsplit]
    _ = Py.pyWords l := wordsAux_dropWhile l

/-- `str.strip()` does not change the token count. -/
theorem tokenCount_pyStrip (l : List Char) :
    TextChunker.tokenCount (Py.pyStrip l) = TextChunker.tokenCount l := by
  simp only [TextChunker.tokenCount, TextChunker.encode, pyWords_pyStrip]

/-- Token counts add over a single-space join. -/
theorem tokenCount_append_space (a b : List Char) :
    TextChunker.tokenCount (a ++ ' ' :: b) =
      TextChunker.tokenCount a + TextChunker.tokenCount b := by
  simp only [TextChunker.tokenCount, TextChunker.encode, Py.pyWords, wordsAux_append_space,
    List.length_append]

/-- Words produced by the splitter are non-empty and whitespace-free. -/
theorem wordsAux_word_spec :
    ∀ (l acc : List Char), (∀ c ∈ acc, ¬ Py.isPySpace c) →
      ∀ w ∈ Py.wordsAux l acc, w ≠ [] ∧ ∀ c ∈ w, ¬ Py.isPySpace c := by
  intro l
  induction l with
  | nil =>
    intro acc hacc w hw
    by_cases h : acc = []
    · simp [Py.wordsAux, h] at hw
    · simp only [Py.wordsAux, if_neg h, List.mem_singleton] at hw
      subst hw
      refine ⟨by simpa using h, ?_⟩
      intro c hc
      exact hacc c (by simpa using hc)
  | cons c cs ih =>
    intro acc hacc w hw
    by_cases hc : Py.isPySpace c
    · simp only [Py.wordsAux, hc, if_true] at hw
      by_cases h : acc = []
      · rw [if_pos h] at hw
        exact ih [] (by simp) w hw
      · rw [if_neg h] at hw
        rcases List.mem_cons.1 hw with rfl | hw'
        · refine ⟨by simpa using h, ?_⟩
          intro d hd
          exact hacc d (by simpa using hd)
        · exact ih [] (by simp) w hw'
    · simp only [Py.wordsAux, hc, if_false] at hw
      refine ih (c :: acc) ?_ w hw
      intro d hd
      rcases List.mem_cons.1 hd with rfl | hd'
      · exact hc
      · exact hacc d hd'

/-- Consuming a whitespace-free run moves it into the accumulator. -/
theorem wordsAux_run (w : List Char) (hw : ∀ c ∈ w, ¬ Py.isPySpace c) :
    ∀ (rest acc : List Char),
      Py.wordsAux (w ++ rest) acc = Py.wordsAux rest (w.reverse ++ acc) := by
  induction w with
  | nil => intro rest acc; simp
  | cons c cs ih =>
    intro rest acc
    have hc : ¬ Py.isPySpace c := hw c (by simp)
    have ih' := ih (fun d hd => hw d (by simp [hd]))
    simp only [List.cons_append, Py.wordsAux, hc, Bool.false_eq_true, if_false, List.append_eq]
    rw [ih']
    simp [List.append_assoc]

/-- A single non-empty whitespace-free word splits to itself. -/
theorem pyWords_single (w : List Char) (hne : w ≠ [])
    (hns : ∀ c ∈ w, ¬ Py.isPySpace c) : Py.pyWords w = [w] := by
  have h := wordsAux_run w hns [] []
  rw [List.append_nil] at h
  show Py.wordsAux w [] = [w]
  rw [h]
  simp [Py.wordsAux, hne]

/-- Joining non-empty whitespace-free words and splitting again is the
identity (encode after decode on token lists). -/
theorem pyWords_joinWords :
    ∀ ws : List (List Char), (∀ w ∈ ws, w ≠ [] ∧ ∀ c ∈ w, ¬ Py.isPySpace c) →
      Py.pyWords (Py.joinWords ws) = ws := by
  intro ws
  induction ws with
  | nil => intro _; rfl
  | cons w ws ih =>
    intro h
    obtain ⟨hne, hns⟩ := h w (by simp)
    rcases ws with _ | ⟨x, xs⟩
    · exact pyWords_single w hne hns
    · have hrest := ih (fun u hu => h u (by simp [hu]))
      show Py.pyWords (w ++ ' ' :: Py.joinWords (x :: xs)) = w :: x :: xs
      rw [Py.pyWords, wordsAux_append_space]
      rw [show Py.wordsAux w [] = Py.pyWords w from rfl,
        show Py.wordsAux (Py.joinWords (x :: xs)) [] = Py.pyWords (Py.joinWords (x :: xs)) from rfl]
      rw [pyWords_single w hne hns, hrest]
      rfl

/-- With a positive overlap the carried-over overlap text has at most
`chunk_overlap` tokens. -/
theorem tokenCount_overlap_le (chunk_overlap : Nat) (hco : 0 < chunk_overlap)
    (chunk : List Char) :
    TextChunker.tokenCount (TextChunker.get_overlap_text chunk_overlap chunk) ≤
      chunk_overlap := by
  simp only [TextChunker.get_overlap_text]
  split
  · rename_i hle
    exact hle
  · rename_i hgt
    push_neg at hgt
    have hwords : ∀ w ∈ (TextChunker.encode chunk).drop
        ((TextChunker.encode chunk).length - chunk_overlap),
        w ≠ [] ∧ ∀ c ∈ w, ¬ Py.isPySpace c := by
      intro w hw
      exact wordsAux_word_spec chunk [] (by simp) w (List.mem_of_mem_drop hw)
    simp only [TextChunker.sliceLast, if_neg (Nat.pos_iff_ne_zero.1 hco), TextChunker.decode]
    show (Py.pyWords (Py.joinWords _)).length ≤ chunk_overlap
    rw [pyWords_joinWords _ hwords, List.length_drop]
    omega

/-- Invariant of the accumulation loop: when every pending sentence fits in
`chunk_size - chunk_overlap` tokens and the running buffer respects
`chunk_size`, every emitted chunk respects `chunk_size`. -/
theorem chunkLoop_token_bound (chunk_size chunk_overlap : Nat)
    (hco : 0 < chunk_overlap) (hcs : chunk_overlap ≤ chunk_size) :
    ∀ (sentences : List (List Char)) (cur : List Char) (tok idx : Nat),
      (∀ s ∈ sentences, TextChunker.tokenCount s ≤ chunk_size - chunk_overlap) →
      tok = TextChunker.tokenCount cur → tok ≤ chunk_size →
      ∀ ch ∈ TextChunker.chunkLoop chunk_size chunk_overlap sentences cur tok idx,
        ch.token_count ≤ chunk_size := by
  intro sentences
  induction sentences with
  | nil =>
    intro cur tok idx hsent htok hle ch hch
    simp only [TextChunker.chunkLoop] at hch
    split at hch
    · simp at hch
    · simp only [List.mem_singleton] at hch
      subst hch
      simp only [TextChunker.create_chunk_metadata]
      rw [tokenCount_pyStrip]
      omega
  | cons s rest ih =>
    intro cur tok idx hsent htok hle ch hch
    have hs : TextChunker.tokenCount s ≤ chunk_size - chunk_overlap := hsent s (by simp)
    have hrest : ∀ u ∈ rest, TextChunker.tokenCount u ≤ chunk_size - chunk_overlap :=
      fun u hu => hsent u (by simp [hu])
    simp only [TextChunker.chunkLoop] at hch
    split at hch
    · rename_i hcond
      rcases List.mem_cons.1 hch with rfl | hch'
      · simp only [TextChunker.create_chunk_metadata]
        rw [tokenCount_pyStrip]
        omega
      · refine ih _ _ _ hrest rfl ?_ ch hch'
        rw [tokenCount_append_space]
        have hov := tokenCount_overlap_le chunk_overlap hco cur
        omega
    · rename_i hcond
      refine ih _ _ _ hrest ?_ ?_ ch hch
      · rw [tokenCount_append_space, htok]
      · by_cases hc : cur = []
        · have htok0 : tok = 0 := by
            rw [htok, hc]
            rfl
          omega
        · have hsum : tok + TextChunker.tokenCount s ≤ chunk_size := by
            rcases not_and_or.1 hcond with h | h
            · omega
            · exact (h hc).elim
          omega

/-- Claim C4 amended: no word-boundary splitting of oversized sentences
exists in the code, so the chunk-size bound holds exactly when every
sentence of the cleaned, split input fits in
`chunk_size - chunk_overlap` tokens (for a positive overlap not exceeding
the chunk size, as in the default configuration `1000`/`200`); then every
produced chunk has `token_count ≤ chunk_size`. -/
theorem chunk_size_bound_amended :
    ∀ (chunk_size chunk_overlap : Nat) (text : List Char),
      0 < chunk_overlap → chunk_overlap ≤ chunk_size →
      (∀ s ∈ TextChunker.split_into_sentences (TextChunker.clean_text text),
        TextChunker.tokenCount s ≤ chunk_size - chunk_overlap) →
      ∀ ch ∈ TextChunker.chunk_text chunk_size chunk_overlap text,
        ch.token_count ≤ chunk_size :=
  fun chunk_size chunk_overlap _text hco hcs hsent ch hch =>
    chunkLoop_token_bound chunk_size chunk_overlap hco hcs _ [] 0 0 hsent rfl
      (Nat.zero_le _) ch hch

set_option maxRecDepth 100000 in
/-- Counterexample to claim C4 as stated: with the default configuration
(`chunk_size = 1000`, `chunk_overlap = 200`) a single sentence of 1001
one-letter words — which word-boundary splitting would cut — is emitted as
one chunk of 1001 tokens, exceeding `chunk_size` although it is not a single
unsplittable word. -/
theorem chunk_size_bound_counterexample :
    ¬ ∀ ch ∈ TextChunker.chunk_text 1000 200 Fixtures.c4LongSentence,
        ch.word_count ≤ 1 ∨ ch.token_count ≤ 1000 := by decide

/-- Witness for claim C4 amended at the default configuration on a small
two-sentence text. -/
theorem chunk_size_bound_amended_witness :
    0 < 200 ∧ 200 ≤ 1000 ∧
      (∀ s ∈ TextChunker.split_into_sentences (TextChunker.clean_text Fixtures.c4SmallText),
        TextChunker.tokenCount s ≤ 1000 - 200) ∧
      ∀ ch ∈ TextChunker.chunk_text 1000 200 Fixtures.c4SmallText,
        ch.token_count ≤ 1000 :=
  ⟨by decide, by decide, by decide,
    chunk_size_bound_amended 1000 200 Fixtures.c4SmallText (by decide) (by decide) (by decide)⟩
